import Mathlib

/-!
Verification development for the access-recertification analytics pipeline.

Each Python module of the analytics core is shallowly embedded below:

* `src/analytics/assurance.py` — assurance scoring (sensitivity ceilings,
  usage factors, typicality, final score and classification);
* `src/analytics/clustering.py` — consensus analysis over multi-strategy
  cluster assignments, and the graph-community strategy;
* `src/analytics/peer_proximity.py` — proximity weights, per-dimension
  proximity scores and the pairwise proximity matrix;
* the temporal part of feature extraction, with the wall clock made an
  explicit parameter.

Python floats are modelled as rationals wherever the code only adds,
multiplies, divides and compares them; the temporal and behavioral
proximity dimensions use `Real.exp` and `Real.sqrt`, so everything that
consumes them lives in `ℝ` (with the rational weights cast in).
`round(x, n)` is modelled as rounding to the nearest multiple of
`10 ^ (-n)`; no property proved here depends on the direction of ties.
-/

/-! ## Assurance scoring (`src/analytics/assurance.py`) -/

/-- `SensitivityConfig`: the four sensitivity ceilings, with the source defaults. -/
structure SensitivityConfig where
  PUBLIC : ℚ := 1
  INTERNAL : ℚ := 0.85
  CONFIDENTIAL : ℚ := 0.50
  CRITICAL : ℚ := 0
deriving DecidableEq

def defaultSensitivityConfig : SensitivityConfig := {}

/-- Python `str.upper()` on the ASCII level names used by the scorer. -/
def upperStr (s : String) : String := String.mk (s.data.map Char.toUpper)

/-- `SensitivityConfig.get_ceiling`: `getattr(self, level.upper() if level else
"INTERNAL", self.INTERNAL)`.  An empty level falls back to `INTERNAL`, and any
name other than the four dataclass fields hits the `getattr` default. -/
def get_ceiling (c : SensitivityConfig) (level : String) : ℚ :=
  let u := if level = "" then "INTERNAL" else upperStr level
  if u = "PUBLIC" then c.PUBLIC
  else if u = "INTERNAL" then c.INTERNAL
  else if u = "CONFIDENTIAL" then c.CONFIDENTIAL
  else if u = "CRITICAL" then c.CRITICAL
  else c.INTERNAL

/-- `UsagePattern` dataclass. -/
structure UsagePattern where
  total_access_count : ℤ := 0
  last_accessed_days_ago : Option ℤ := none
  access_count_30d : ℤ := 0
  access_count_90d : ℤ := 0
  days_since_grant : ℤ := 0
deriving DecidableEq

/-- `AssuranceConfig` dataclass with the source defaults. -/
structure AssuranceConfig where
  high_assurance_threshold : ℚ := 80
  medium_assurance_threshold : ℚ := 50
  sensitivity : SensitivityConfig := {}
  active_days_threshold : ℤ := 30
  occasional_days_threshold : ℤ := 90
  stale_days_threshold : ℤ := 365
  weight_typicality : ℚ := 0.6
  weight_usage : ℚ := 0.4
deriving DecidableEq

def defaultAssuranceConfig : AssuranceConfig := {}

/-- `AssuranceScorer.calculate_usage_factor`. -/
def calculate_usage_factor (cfg : AssuranceConfig) (usage : UsagePattern) : ℚ × String :=
  if usage.total_access_count = 0 then (0.1, "dormant")
  else
    match usage.last_accessed_days_ago with
    | none => (0.1, "dormant")
    | some d =>
      if d ≤ cfg.active_days_threshold then
        if 10 ≤ usage.access_count_30d then (1, "active")
        else if 3 ≤ usage.access_count_30d then (0.9, "active")
        else (0.8, "active")
      else if d ≤ cfg.occasional_days_threshold then (0.6, "occasional")
      else if d ≤ cfg.stale_days_threshold then (0.3, "stale")
      else (0.1, "dormant")

/-- `access_by_employee.get(peer_id, set())`. -/
def lookupAccessSet (access_by_employee : List (String × Finset String)) (emp : String) :
    Finset String :=
  ((access_by_employee.find? (fun p => p.1 = emp)).map (fun p => p.2)).getD ∅

/-- `AssuranceScorer.calculate_typicality` (the unused `employee_id` argument is dropped).
Returns `(typicality, peers_with_access, total_peers)`. -/
def calculate_typicality (resource_id : String) (peer_ids : List String)
    (access_by_employee : List (String × Finset String)) : ℚ × ℕ × ℕ :=
  if peer_ids = [] then (0.5, 0, 0)
  else
    let total := peer_ids.length
    let cnt := (peer_ids.filter (fun p => resource_id ∈ lookupAccessSet access_by_employee p)).length
    (if 0 < total then (cnt : ℚ) / total else 0.5, cnt, total)

/-- Python `round(x, digits)`, as rounding to the nearest multiple of `10 ^ (-digits)`. -/
def round_to (digits : ℕ) (x : ℚ) : ℚ := (round (x * 10 ^ digits) : ℚ) / 10 ^ digits

/-- `AssuranceScore` dataclass (the free-text `explanations` list is omitted:
no property below concerns it). -/
structure AssuranceScore where
  grant_id : String
  employee_id : String
  resource_id : String
  overall_score : ℚ
  peer_typicality : ℚ
  sensitivity_ceiling : ℚ
  usage_factor : ℚ
  raw_score : ℚ
  peers_with_access : ℕ
  total_peers : ℕ
  peer_percentage : ℚ
  usage_pattern : String
  days_since_last_use : Option ℤ
  resource_sensitivity : String
  resource_name : String
  classification : String
  auto_certify_eligible : Bool
deriving DecidableEq

/-- `AssuranceScorer.calculate_score`. -/
def calculate_score (cfg : AssuranceConfig) (grant_id employee_id resource_id : String)
    (resource_sensitivity resource_name : String) (peer_ids : List String)
    (access_by_employee : List (String × Finset String)) (usage : UsagePattern) :
    AssuranceScore :=
  let t := calculate_typicality resource_id peer_ids access_by_employee
  let typicality := t.1
  let peers_with := t.2.1
  let total_peers := t.2.2
  let uf := calculate_usage_factor cfg usage
  let sensitivity_ceiling := get_ceiling cfg.sensitivity resource_sensitivity
  let raw_score := cfg.weight_typicality * typicality + cfg.weight_usage * uf.1
  let final_score := raw_score * sensitivity_ceiling * 100
  let peer_percentage := if 0 < total_peers then (peers_with : ℚ) / total_peers * 100 else 0
  let cls_auto :=
    if cfg.high_assurance_threshold ≤ final_score then ("high_assurance", true)
    else if cfg.medium_assurance_threshold ≤ final_score then ("medium_assurance", false)
    else ("low_assurance", false)
  let auto := if sensitivity_ceiling = 0 then false else cls_auto.2
  { grant_id := grant_id, employee_id := employee_id, resource_id := resource_id,
    overall_score := round_to 1 final_score,
    peer_typicality := round_to 3 typicality,
    sensitivity_ceiling := sensitivity_ceiling,
    usage_factor := round_to 3 uf.1,
    raw_score := round_to 3 raw_score,
    peers_with_access := peers_with,
    total_peers := total_peers,
    peer_percentage := round_to 1 peer_percentage,
    usage_pattern := uf.2,
    days_since_last_use := usage.last_accessed_days_ago,
    resource_sensitivity := resource_sensitivity,
    resource_name := resource_name,
    classification := cls_auto.1,
    auto_certify_eligible := auto }

/-- `score_all_grants`: `resources.get(res_id, ..).get("sensitivity", "Internal")`.
A resource record is reduced to its sensitivity string, the only field the
ceiling depends on. -/
def grant_sensitivity (resources : List (String × String)) (res_id : String) : String :=
  ((resources.find? (fun p => p.1 = res_id)).map (fun p => p.2)).getD "Internal"

/-- Spec-side usage-factor table, written from the claim: dormant on zero count or
missing recency; three active tiers by 30-day count; occasional, stale, dormant by
recency under the default 30/90/365 thresholds. -/
def specUsageFactor (u : UsagePattern) : ℚ × String :=
  if u.total_access_count = 0 ∨ u.last_accessed_days_ago = none then (0.1, "dormant")
  else
    match u.last_accessed_days_ago with
    | none => (0.1, "dormant")
    | some d =>
      if d ≤ 30 then
        (if 10 ≤ u.access_count_30d then (1 : ℚ)
         else if 3 ≤ u.access_count_30d then 0.9 else 0.8, "active")
      else if d ≤ 90 then (0.6, "occasional")
      else if d ≤ 365 then (0.3, "stale")
      else (0.1, "dormant")

/-! ## Consensus analysis (`src/analytics/clustering.py`, `analyze_consensus`) -/

/-- `ClusterAssignment` dataclass (the strategy tag is implicit in which map the
assignment sits in). -/
structure ClusterAssignment where
  employee_id : String
  cluster_id : ℤ
  confidence : ℚ
  is_outlier : Bool
deriving DecidableEq

/-- One strategy's output: the dict `employee_id → ClusterAssignment`. -/
abbrev StrategyAssignments := List (String × ClusterAssignment)

def lookupAssignment (m : StrategyAssignments) (e : String) : Option ClusterAssignment :=
  (m.find? (fun p => p.1 = e)).map (fun p => p.2)

/-- `emp_assignments`: the successful strategies containing `e`, in iteration order,
each paired with `e`'s assignment there. -/
def empStrategies (all : List StrategyAssignments) (e : String) :
    List (StrategyAssignments × ClusterAssignment) :=
  all.filterMap (fun m => (lookupAssignment m e).map (fun a => (m, a)))

/-- Peer set of `e` under one strategy: empty for outliers, otherwise all other
employees sharing `e`'s cluster id. -/
def peerSet (m : StrategyAssignments) (e : String) (a : ClusterAssignment) : Finset String :=
  if a.is_outlier then ∅
  else ((m.filter (fun p => decide (p.1 ≠ e) && decide (p.2.cluster_id = a.cluster_id))).map
    (fun p => p.1)).toFinset

def peerSetsFor (all : List StrategyAssignments) (e : String) : List (Finset String) :=
  (empStrategies all e).map (fun p => peerSet p.1 e p.2)

/-- `intersection / union if union > 0 else 1.0`. -/
def jaccardOf (a b : Finset String) : ℚ :=
  let u := (a ∪ b).card
  if 0 < u then ((a ∩ b).card : ℚ) / u else 1

/-- The double loop `for i in range(n): for j in range(i+1, n)` collecting
`jaccard(peer_sets[i], peer_sets[j])` for the pairs where at least one set is
non-empty (`if set_a or set_b`); pairs of two empty sets are skipped. -/
def pairwiseSims : List (Finset String) → List ℚ
  | [] => []
  | s :: rest =>
      (rest.filterMap (fun t => if s ≠ ∅ ∨ t ≠ ∅ then some (jaccardOf s t) else none)) ++
        pairwiseSims rest

/-- `np.mean(pairwise_similarities) if pairwise_similarities else 0.0`. -/
def meanOrZero (l : List ℚ) : ℚ := if l = [] then 0 else l.sum / l.length

/-- The consensus-score computation on the list of peer sets: mean of the collected
pairwise similarities when there are at least two strategies, otherwise 1.0. -/
def consensusScoreSets (sets : List (Finset String)) : ℚ :=
  if 2 ≤ sets.length then meanOrZero (pairwiseSims sets) else 1

/-- `ConsensusResult.consensus_score` for employee `e`: the early-exit branch for
zero successful strategies leaves the dataclass default 0.0. -/
def consensusScoreOf (all : List StrategyAssignments) (e : String) : ℚ :=
  if empStrategies all e = [] then 0 else consensusScoreSets (peerSetsFor all e)

/-- `non_outlier_clusters`: cluster ids of `e`'s non-outlier votes, in strategy order. -/
def nonOutlierClustersOf (all : List StrategyAssignments) (e : String) : List ℤ :=
  ((empStrategies all e).filter (fun p => !p.2.is_outlier)).map (fun p => p.2.cluster_id)

/-- `Counter(l).most_common(1)[0][0]`: `Counter` keys keep first-insertion order and
`most_common`'s sort is stable, so this is the first element of `l` whose
multiplicity in `l` is maximal. -/
def mostCommonFirst (l : List ℤ) : ℤ :=
  (l.find? (fun x => l.all (fun y => l.count y ≤ l.count x))).getD 0

/-- `ConsensusResult.consensus_cluster_id`: `None` when no strategy produced a result
for `e` (the early-exit branch), `-1` when every vote was an outlier vote, else the
`Counter` mode. -/
def consensusClusterIdOf (all : List StrategyAssignments) (e : String) : Option ℤ :=
  if empStrategies all e = [] then none
  else if nonOutlierClustersOf all e = [] then some (-1)
  else some (mostCommonFirst (nonOutlierClustersOf all e))

/-- Unordered pairs `(l[i], l[j])` with `i < j`, in loop order. -/
def listPairs {α : Type} : List α → List (α × α)
  | [] => []
  | a :: t => (t.map (fun b => (a, b))) ++ listPairs t

/-- Spec-side consensus score after amendment: the mean of Jaccard over the unordered
strategy pairs with at least one non-empty peer set, and 0 when there is no such
pair. -/
def specConsensusScore (sets : List (Finset String)) : ℚ :=
  let ps := (listPairs sets).filter (fun p => decide (p.1 ≠ ∅) || decide (p.2 ≠ ∅))
  if ps = [] then 0 else (ps.map (fun p => jaccardOf p.1 p.2)).sum / ps.length

/-- Claim-side consensus score as originally stated: mean over ALL unordered pairs,
with `jaccardOf ∅ ∅ = 1` supplying the claimed `Jaccard(∅,∅) = 1.0` convention. -/
def claimConsensusScore (sets : List (Finset String)) : ℚ :=
  meanOrZero ((listPairs sets).map (fun p => jaccardOf p.1 p.2))

/-- Spec-side mode characterization used by the amended C6: `mv` occurs in `l` with
maximal multiplicity, and among maximal elements its first occurrence is earliest. -/
abbrev IsFirstMode (l : List ℤ) (mv : ℤ) : Prop :=
  mv ∈ l ∧ (∀ x ∈ l, l.count x ≤ l.count mv) ∧
    ∀ x ∈ l, l.count x = l.count mv → l.indexOf mv ≤ l.indexOf x

/-- Claim-side mode: maximal multiplicity with ties broken by SMALLEST cluster id. -/
abbrev IsMinMode (l : List ℤ) (mv : ℤ) : Prop :=
  mv ∈ l ∧ (∀ x ∈ l, l.count x ≤ l.count mv) ∧
    ∀ x ∈ l, l.count x = l.count mv → mv ≤ x

/-! ## Graph-community strategy (`cluster_graph_community`) -/

/-- The `i < j` edge loop: an edge `(ids[i], ids[j])` with weight `M[i][j]` exists
exactly when `M[i][j] ≥ min_edge_weight`.  The matrix is rational-valued here: the
graph strategy only compares and averages its entries. -/
def gcEdges (mat : ℕ → ℕ → ℚ) (ids : List String) (minw : ℚ) :
    List (String × String × ℚ) :=
  (listPairs ids.enum).filterMap (fun p =>
    if minw ≤ mat p.1.1 p.2.1 then some (p.1.2, p.2.2, mat p.1.1 p.2.1) else none)

/-- `G.neighbors(e)` with the incident edge weights. -/
def gcNeighbors (edges : List (String × String × ℚ)) (e : String) : List (String × ℚ) :=
  edges.filterMap (fun t =>
    if t.1 = e then some (t.2.1, t.2.2)
    else if t.2.1 = e then some (t.1, t.2.2) else none)

/-- `emp_to_cluster` built by `enumerate(communities)` with later communities
overwriting earlier ones, and `.get(emp_id, -1)`. -/
def clusterOfC (cs : List (Finset String)) (e : String) : ℤ :=
  match cs.enum.reverse.find? (fun p => decide (e ∈ p.2)) with
  | some p => (p.1 : ℤ)
  | none => -1

/-- The confidence assignment of `cluster_graph_community`: mean edge weight to
co-community neighbors, 0.5 when an employee has no edge into its own community,
0 only for employees missing from every community. -/
def gcConfidence (edges : List (String × String × ℚ)) (cs : List (Finset String))
    (e : String) : ℚ :=
  let cid := clusterOfC cs e
  if 0 ≤ cid then
    let community := cs.getD cid.toNat ∅
    let nbrs := (gcNeighbors edges e).filter (fun p => decide (p.1 ∈ community))
    if nbrs ≠ [] then (nbrs.map (fun p => p.2)).sum / nbrs.length else 0.5
  else 0

/-- Modelled from the spec: `networkx.algorithms.community.louvain_communities` is an
external library call, not code under `src/`.  Per the spec's graph-community
section, its output is a partition of the node set in which employees in no edge
land in a singleton community. -/
abbrev LouvainOutput (nodes : List String) (edges : List (String × String × ℚ))
    (cs : List (Finset String)) : Prop :=
  (∀ e ∈ nodes, ∃ i ∈ List.range cs.length, e ∈ cs.getD i ∅) ∧
  (∀ i ∈ List.range cs.length, ∀ j ∈ List.range cs.length, i ≠ j →
    ∀ e ∈ cs.getD i ∅, e ∉ cs.getD j ∅) ∧
  (∀ e ∈ nodes, gcNeighbors edges e = [] →
    ∀ i ∈ List.range cs.length, e ∈ cs.getD i ∅ → cs.getD i ∅ = {e})

/-! ## Peer proximity (`src/analytics/peer_proximity.py`) -/

/-- `ProximityWeights` dataclass with the source defaults. -/
structure ProximityWeights where
  structural : ℚ := 0.25
  functional : ℚ := 0.35
  behavioral : ℚ := 0.30
  temporal : ℚ := 0.10
deriving DecidableEq

def ProximityWeights.total (w : ProximityWeights) : ℚ :=
  w.structural + w.functional + w.behavioral + w.temporal

/-- `ProximityWeights.validate`: `abs(total - 1.0) < 0.001`. -/
def ProximityWeights.validate (w : ProximityWeights) : Bool :=
  decide (|w.total - 1| < 0.001)

/-- `ProximityWeights.normalize`: divide by the total, or return the defaults when
the total is zero. -/
def ProximityWeights.normalize (w : ProximityWeights) : ProximityWeights :=
  if w.total = 0 then {}
  else ⟨w.structural / w.total, w.functional / w.total,
        w.behavioral / w.total, w.temporal / w.total⟩

/-- `PeerProximityCalculator.__init__`: keep the weights if `validate()` passes,
otherwise silently renormalize. -/
def initWeights (w : ProximityWeights) : ProximityWeights :=
  if w.validate then w else w.normalize

/-- `EmployeeFeatures` dataclass.  Activity intensities are rationals (the extractor
produces `min(count/100, 1)`). -/
structure EmployeeFeatures where
  employee_id : String
  manager_id : Option String := none
  team_id : Option String := none
  sub_lob_id : Option String := none
  lob_id : Option String := none
  location_id : Option String := none
  job_title : String := ""
  job_code : String := ""
  job_family : String := ""
  job_level : ℤ := 0
  cost_center_id : Option String := none
  access_set : Finset String := ∅
  activity_vector : List (String × ℚ) := []
  tenure_days : ℤ := 0
  time_in_role_days : ℤ := 0
  hire_quarter : String := ""

/-- Python truthiness of an optional string: `None` and `""` are falsy. -/
def optTruthy : Option String → Bool
  | some s => !(s == "")
  | none => false

/-- `manager_chains.get(emp_id, [])`. -/
def chainOf (mc : List (String × List String)) (id : String) : List String :=
  ((mc.find? (fun p => p.1 = id)).map (fun p => p.2)).getD []

/-- The manager-chain term of structural proximity: `0.2/(1+d)` for the least
combined index distance `d` to a common ancestor, 0 with no chains, an empty
chain dict (Python falsiness) or no common ancestor. -/
noncomputable def chainTerm (a b : EmployeeFeatures)
    (manager_chains : Option (List (String × List String))) : ℝ :=
  match manager_chains with
  | none => 0
  | some mc =>
    if mc = [] then 0
    else
      let chain_a := chainOf mc a.employee_id
      let chain_b := chainOf mc b.employee_id
      let common := chain_a.filter (fun x => decide (x ∈ chain_b))
      match (common.map (fun anc =>
          (if anc ∈ chain_a then chain_a.indexOf anc else 999) +
          (if anc ∈ chain_b then chain_b.indexOf anc else 999))).min? with
      | some d => 0.2 * (1 / (1 + (d : ℝ)))
      | none => 0

/-- `calculate_structural_proximity`.  Each condition `x and x == y` requires the
left side truthy. -/
noncomputable def calculate_structural_proximity (a b : EmployeeFeatures)
    (manager_chains : Option (List (String × List String))) : ℝ :=
  let s1 : ℝ := if optTruthy a.manager_id ∧ a.manager_id = b.manager_id then 0.3 else 0
  let s2 : ℝ := chainTerm a b manager_chains
  let s3 : ℝ := if optTruthy a.team_id ∧ a.team_id = b.team_id then 0.2 else 0
  let s4 : ℝ := if optTruthy a.sub_lob_id ∧ a.sub_lob_id = b.sub_lob_id then 0.15 else 0
  let s5 : ℝ := if optTruthy a.lob_id ∧ a.lob_id = b.lob_id then 0.1 else 0
  let s6 : ℝ := if optTruthy a.location_id ∧ a.location_id = b.location_id then 0.05 else 0
  min (s1 + s2 + s3 + s4 + s5 + s6) 1

/-- `calculate_functional_proximity`. -/
noncomputable def calculate_functional_proximity (a b : EmployeeFeatures) : ℝ :=
  let s1 : ℝ := if a.job_code ≠ "" ∧ a.job_code = b.job_code then 0.35 else 0
  let s2 : ℝ := if a.job_family ≠ "" ∧ a.job_family = b.job_family then 0.25 else 0
  let s3 : ℝ := if 0 < a.job_level ∧ 0 < b.job_level then
      0.2 * max 0 (1 - ((|a.job_level - b.job_level| : ℤ) : ℝ) / 7) else 0
  let s4 : ℝ := if optTruthy a.cost_center_id ∧ a.cost_center_id = b.cost_center_id
      then 0.2 else 0
  min (s1 + s2 + s3 + s4) 1

/-- `activity_vector.get(r, 0)`. -/
def actLookup (v : List (String × ℚ)) (r : String) : ℚ :=
  ((v.find? (fun p => p.1 = r)).map (fun p => p.2)).getD 0

/-- `set(vector.keys())`. -/
def actKeys (v : List (String × ℚ)) : Finset String := (v.map (fun p => p.1)).toFinset

/-- `calculate_behavioral_proximity`.  `np.linalg.norm(v) > 0` is expressed by the
equivalent rational test `0 < Σ v_i²`, and the cosine denominator by
`Real.sqrt` of those sums. -/
noncomputable def calculate_behavioral_proximity (a b : EmployeeFeatures) : ℝ :=
  let s1 : ℝ :=
    if a.access_set ≠ ∅ ∨ b.access_set ≠ ∅ then
      let u := (a.access_set ∪ b.access_set).card
      if 0 < u then 0.5 * (((a.access_set ∩ b.access_set).card : ℝ) / u) else 0
    else 0
  let s2 : ℝ :=
    if a.activity_vector ≠ [] ∧ b.activity_vector ≠ [] then
      let keys := actKeys a.activity_vector ∪ actKeys b.activity_vector
      if keys ≠ ∅ then
        let dot : ℚ := ∑ r ∈ keys, actLookup a.activity_vector r * actLookup b.activity_vector r
        let sa : ℚ := ∑ r ∈ keys, actLookup a.activity_vector r ^ 2
        let sb : ℚ := ∑ r ∈ keys, actLookup b.activity_vector r ^ 2
        if 0 < sa ∧ 0 < sb then
          0.5 * ((dot : ℝ) / (Real.sqrt (sa : ℝ) * Real.sqrt (sb : ℝ)))
        else 0
      else 0
    else 0
  min (s1 + s2) 1

/-- `calculate_temporal_proximity`: Gaussian similarities on tenure and time in
role, plus the shared hire-quarter cohort term. -/
noncomputable def calculate_temporal_proximity (a b : EmployeeFeatures) : ℝ :=
  let s1 : ℝ := if 0 < a.tenure_days ∧ 0 < b.tenure_days then
      0.4 * Real.exp (-(((|a.tenure_days - b.tenure_days| : ℤ) : ℝ) ^ 2) / (2 * 365 ^ 2))
    else 0
  let s2 : ℝ := if 0 < a.time_in_role_days ∧ 0 < b.time_in_role_days then
      0.3 * Real.exp (-(((|a.time_in_role_days - b.time_in_role_days| : ℤ) : ℝ) ^ 2) / (2 * 180 ^ 2))
    else 0
  let s3 : ℝ := if a.hire_quarter ≠ "" ∧ a.hire_quarter = b.hire_quarter then 0.3 else 0
  min (s1 + s2 + s3) 1

/-- `calculate_proximity`: the weighted combination (no clipping here). -/
noncomputable def calculate_proximity (w : ProximityWeights) (a b : EmployeeFeatures)
    (manager_chains : Option (List (String × List String))) : ℝ :=
  (w.structural : ℝ) * calculate_structural_proximity a b manager_chains +
  (w.functional : ℝ) * calculate_functional_proximity a b +
  (w.behavioral : ℝ) * calculate_behavioral_proximity a b +
  (w.temporal : ℝ) * calculate_temporal_proximity a b

/-- One cell assignment `matrix[i][j] = v`. -/
def matWrite (m : ℕ → ℕ → ℝ) (i j : ℕ) (v : ℝ) : ℕ → ℕ → ℝ :=
  fun x y => if x = i ∧ y = j then v else m x y

/-- The loop body writes `matrix[idx_a][idx_b] = p` then `matrix[idx_b][idx_a] = p`;
a write list applies those symmetric pairs in order. -/
def applyWrites : List (ℕ × ℕ × ℝ) → (ℕ → ℕ → ℝ) → (ℕ → ℕ → ℝ)
  | [], m => m
  | (i, j, v) :: rest, m => applyWrites rest (matWrite (matWrite m i j v) j i v)

/-- `features.get(emp_id)`. -/
def lookupFeatures (features : List (String × EmployeeFeatures)) (id : String) :
    Option EmployeeFeatures :=
  (features.find? (fun p => p.1 = id)).map (fun p => p.2)

/-- `id_to_idx = \x7bemp_id: i for i, emp_id in enumerate(employee_ids)\x7d`: for a
duplicated id the later index wins. -/
def idToIdx (ids : List String) (id : String) : ℕ :=
  match ids.enum.reverse.find? (fun p => p.2 = id) with
  | some p => p.1
  | none => 0

/-- `feat.lob_id or "unknown"` (Python `or`: `None` and `""` both fall through). -/
def lobKeyOf (features : List (String × EmployeeFeatures)) (id : String) : String :=
  match lookupFeatures features id with
  | some f =>
    match f.lob_id with
    | some s => if s = "" then "unknown" else s
    | none => "unknown"
  | none => "unknown"

/-- Dict-key order: first occurrences, in order. -/
def firstDedup (l : List String) : List String :=
  l.foldl (fun acc a => if a ∈ acc then acc else acc ++ [a]) []

/-- Write list of the non-blocked double loop (`for i, a in enumerate: for j, b in
enumerate(ids[i+1:], i+1)`), skipping ids without features. -/
noncomputable def fullWrites (w : ProximityWeights)
    (features : List (String × EmployeeFeatures))
    (chains : Option (List (String × List String))) (ids : List String) :
    List (ℕ × ℕ × ℝ) :=
  (listPairs ids.enum).filterMap (fun p =>
    match lookupFeatures features p.1.2, lookupFeatures features p.2.2 with
    | some fa, some fb => some (p.1.1, p.2.1, calculate_proximity w fa fb chains)
    | _, _ => none)

/-- Write list of the LOB-blocked loops: group the ids having features by LOB key
(in first-occurrence order) and run the pair loop inside each group, with indices
resolved through `id_to_idx`. -/
noncomputable def blockWrites (w : ProximityWeights)
    (features : List (String × EmployeeFeatures))
    (chains : Option (List (String × List String))) (ids : List String) :
    List (ℕ × ℕ × ℝ) :=
  let present := ids.filter (fun id => (lookupFeatures features id).isSome)
  let keys := firstDedup (present.map (lobKeyOf features))
  keys.foldr (fun k acc =>
    (let g := present.filter (fun id => lobKeyOf features id = k)
     (listPairs g).filterMap (fun p =>
       match lookupFeatures features p.1, lookupFeatures features p.2 with
       | some fa, some fb =>
         some (idToIdx ids p.1, idToIdx ids p.2, calculate_proximity w fa fb chains)
       | _, _ => none)) ++ acc) []

/-- `np.fill_diagonal(matrix, 1.0)`. -/
def fillDiag (m : ℕ → ℕ → ℝ) : ℕ → ℕ → ℝ := fun x y => if x = y then 1 else m x y

/-- `calculate_pairwise_proximity_matrix`: start from zeros, apply the pairwise
writes of the chosen mode, then fill the diagonal with 1. -/
noncomputable def calculate_pairwise_proximity_matrix (w : ProximityWeights)
    (ids : List String) (features : List (String × EmployeeFeatures))
    (chains : Option (List (String × List String))) (block_by_lob : Bool) :
    ℕ → ℕ → ℝ :=
  fillDiag (applyWrites
    (if block_by_lob then blockWrites w features chains ids
     else fullWrites w features chains ids)
    (fun _ _ => 0))

/-! ## Feature extraction, temporal fields (`extract_features`) -/

/-- `extract_features` computes `(datetime.now(tz) - hire_date).days`; the wall
clock is made an explicit `now_day` parameter (days since epoch), missing or
unparseable dates leave 0. -/
def tenure_days_at (now_day : ℤ) (hire_day : Option ℤ) : ℤ :=
  match hire_day with
  | some hd => now_day - hd
  | none => 0

/-! ## Helper lemmas: rounding, typicality, usage, ceilings -/

theorem round_to_mono (d : ℕ) {x y : ℚ} (h : x ≤ y) : round_to d x ≤ round_to d y := by
  unfold round_to
  have h10 : (0 : ℚ) < 10 ^ d := by positivity
  have h1 : round (x * 10 ^ d) ≤ round (y * 10 ^ d) := by
    rw [round_eq, round_eq]
    refine Int.floor_le_floor ?_
    have := mul_le_mul_of_nonneg_right h (le_of_lt h10)
    linarith
  exact (div_le_div_iff_of_pos_right h10).mpr (by exact_mod_cast h1)

theorem round_to_zero (d : ℕ) : round_to d 0 = 0 := by
  unfold round_to
  simp

theorem round_to_nonneg (d : ℕ) {x : ℚ} (hx : 0 ≤ x) : 0 ≤ round_to d x := by
  have := round_to_mono d hx
  rw [round_to_zero] at this
  exact this

theorem round_to_le_of_le (d : ℕ) {x M : ℚ} (k : ℤ) (hM : M * 10 ^ d = (k : ℚ))
    (h : x ≤ M) : round_to d x ≤ M := by
  have h10 : (0 : ℚ) < 10 ^ d := by positivity
  have h2 : round_to d M = M := by
    unfold round_to
    rw [hM, round_intCast, div_eq_iff (ne_of_gt h10)]
    exact hM.symm
  calc round_to d x ≤ round_to d M := round_to_mono d h
    _ = M := h2

theorem typicality_bounds (rid : String) (peers : List String)
    (acc : List (String × Finset String)) :
    0 ≤ (calculate_typicality rid peers acc).1 ∧ (calculate_typicality rid peers acc).1 ≤ 1 := by
  unfold calculate_typicality
  by_cases h : peers = []
  · rw [if_pos h]
    norm_num
  · rw [if_neg h]
    have hl : 0 < peers.length := List.length_pos.mpr h
    simp only
    rw [if_pos hl]
    have hl' : (0 : ℚ) < peers.length := by exact_mod_cast hl
    constructor
    · positivity
    · rw [div_le_one hl']
      exact_mod_cast List.length_filter_le _ peers

theorem usage_factor_bounds (cfg : AssuranceConfig) (u : UsagePattern) :
    0 ≤ (calculate_usage_factor cfg u).1 ∧ (calculate_usage_factor cfg u).1 ≤ 1 := by
  unfold calculate_usage_factor
  rcases hd : u.last_accessed_days_ago with _ | d
  · split_ifs <;> norm_num
  · split_ifs <;> try norm_num
    all_goals split_ifs <;> norm_num

theorem ceiling_cases (level : String) :
    get_ceiling defaultSensitivityConfig level = 0 ∨
    get_ceiling defaultSensitivityConfig level = 1/2 ∨
    get_ceiling defaultSensitivityConfig level = 17/20 ∨
    get_ceiling defaultSensitivityConfig level = 1 := by
  simp only [get_ceiling]
  generalize (if level = "" then "INTERNAL" else upperStr level) = u
  by_cases h1 : u = "PUBLIC"
  · rw [if_pos h1]; norm_num [defaultSensitivityConfig]
  rw [if_neg h1]
  by_cases h2 : u = "INTERNAL"
  · rw [if_pos h2]; norm_num [defaultSensitivityConfig]
  rw [if_neg h2]
  by_cases h3 : u = "CONFIDENTIAL"
  · rw [if_pos h3]; norm_num [defaultSensitivityConfig]
  rw [if_neg h3]
  by_cases h4 : u = "CRITICAL"
  · rw [if_pos h4]; norm_num [defaultSensitivityConfig]
  rw [if_neg h4]; norm_num [defaultSensitivityConfig]

/-- Unfolding equation: the stored overall score. -/
theorem calculate_score_overall (cfg : AssuranceConfig) (g e r sens name : String)
    (p : List String) (acc : List (String × Finset String)) (u : UsagePattern) :
    (calculate_score cfg g e r sens name p acc u).overall_score =
      round_to 1 ((cfg.weight_typicality * (calculate_typicality r p acc).1 +
        cfg.weight_usage * (calculate_usage_factor cfg u).1) *
        get_ceiling cfg.sensitivity sens * 100) := rfl

/-- Unfolding equation: the stored sensitivity string. -/
theorem calculate_score_sens (cfg : AssuranceConfig) (g e r sens name : String)
    (p : List String) (acc : List (String × Finset String)) (u : UsagePattern) :
    (calculate_score cfg g e r sens name p acc u).resource_sensitivity = sens := rfl

/-- Unfolding equation: the auto-certify flag. -/
theorem calculate_score_auto (cfg : AssuranceConfig) (g e r sens name : String)
    (p : List String) (acc : List (String × Finset String)) (u : UsagePattern) :
    (calculate_score cfg g e r sens name p acc u).auto_certify_eligible =
      (if get_ceiling cfg.sensitivity sens = 0 then false
       else
        (if cfg.high_assurance_threshold ≤
            (cfg.weight_typicality * (calculate_typicality r p acc).1 +
              cfg.weight_usage * (calculate_usage_factor cfg u).1) *
              get_ceiling cfg.sensitivity sens * 100 then ("high_assurance", true)
         else if cfg.medium_assurance_threshold ≤
            (cfg.weight_typicality * (calculate_typicality r p acc).1 +
              cfg.weight_usage * (calculate_usage_factor cfg u).1) *
              get_ceiling cfg.sensitivity sens * 100 then ("medium_assurance", false)
         else ("low_assurance", false)).2) := rfl

/-- C1.  For every grant on a Critical-sensitivity resource, under any
classification thresholds and raw-score weights (sensitivity ceilings at their
defaults), `calculate_score` yields `auto_certify_eligible = false` and
`overall_score = 0`, whatever the peers, access map and usage data. -/
theorem C1_critical_never_autocertified (h m wt wu : ℚ) (g e r name : String)
    (peer_ids : List String) (acc : List (String × Finset String)) (usage : UsagePattern) :
    (calculate_score
        { high_assurance_threshold := h, medium_assurance_threshold := m,
          weight_typicality := wt, weight_usage := wu }
        g e r "Critical" name peer_ids acc usage).auto_certify_eligible = false ∧
    (calculate_score
        { high_assurance_threshold := h, medium_assurance_threshold := m,
          weight_typicality := wt, weight_usage := wu }
        g e r "Critical" name peer_ids acc usage).overall_score = 0 := by
  have hs : (AssuranceConfig.mk h m {} 30 90 365 wt wu).sensitivity =
      defaultSensitivityConfig := rfl
  have hcrit : get_ceiling defaultSensitivityConfig "Critical" = 0 := by decide
  constructor
  · rw [calculate_score_auto, hs, hcrit, if_pos rfl]
  · rw [calculate_score_overall, hs, hcrit]
    simp [round_to_zero]

/-- C3.  Under the default configuration every assurance score lies in `[0, 100]`
and below 100 times the sensitivity ceiling of the grant's stored resource
sensitivity. -/
theorem C3_score_within_ceiling (g e r sens name : String) (peer_ids : List String)
    (acc : List (String × Finset String)) (usage : UsagePattern) :
    0 ≤ (calculate_score defaultAssuranceConfig g e r sens name peer_ids acc usage).overall_score ∧
    (calculate_score defaultAssuranceConfig g e r sens name peer_ids acc usage).overall_score ≤ 100 ∧
    (calculate_score defaultAssuranceConfig g e r sens name peer_ids acc usage).overall_score ≤
      100 * get_ceiling defaultSensitivityConfig
        ((calculate_score defaultAssuranceConfig g e r sens name peer_ids acc usage).resource_sensitivity) := by
  have hτ := typicality_bounds r peer_ids acc
  have hu := usage_factor_bounds defaultAssuranceConfig usage
  rw [calculate_score_overall, calculate_score_sens]
  have hwt : defaultAssuranceConfig.weight_typicality = 3/5 := by norm_num [defaultAssuranceConfig]
  have hwu : defaultAssuranceConfig.weight_usage = 2/5 := by norm_num [defaultAssuranceConfig]
  have hsens : defaultAssuranceConfig.sensitivity = defaultSensitivityConfig := rfl
  rw [hwt, hwu, hsens]
  set τ := (calculate_typicality r peer_ids acc).1 with hτdef
  set uf := (calculate_usage_factor defaultAssuranceConfig usage).1 with hudef
  have hraw0 : 0 ≤ 3/5 * τ + 2/5 * uf := by nlinarith [hτ.1, hu.1]
  have hraw1 : 3/5 * τ + 2/5 * uf ≤ 1 := by nlinarith [hτ.2, hu.2]
  rcases ceiling_cases sens with hc | hc | hc | hc <;> rw [hc]
  · refine ⟨?_, ?_, ?_⟩ <;> simp [round_to_zero]
  · refine ⟨round_to_nonneg 1 (by nlinarith), ?_, ?_⟩
    · have : (3/5 * τ + 2/5 * uf) * (1/2) * 100 ≤ 100 := by nlinarith
      exact le_trans (round_to_le_of_le 1 (1000 : ℤ) (by norm_num) this) (by norm_num)
    · have : (3/5 * τ + 2/5 * uf) * (1/2) * 100 ≤ 100 * (1/2) := by nlinarith
      exact round_to_le_of_le 1 (500 : ℤ) (by norm_num) this
  · refine ⟨round_to_nonneg 1 (by nlinarith), ?_, ?_⟩
    · have : (3/5 * τ + 2/5 * uf) * (17/20) * 100 ≤ 100 := by nlinarith
      exact le_trans (round_to_le_of_le 1 (1000 : ℤ) (by norm_num) this) (by norm_num)
    · have : (3/5 * τ + 2/5 * uf) * (17/20) * 100 ≤ 100 * (17/20) := by nlinarith
      exact round_to_le_of_le 1 (850 : ℤ) (by norm_num) this
  · refine ⟨round_to_nonneg 1 (by nlinarith), ?_, ?_⟩
    · have : (3/5 * τ + 2/5 * uf) * 1 * 100 ≤ 100 := by nlinarith
      exact round_to_le_of_le 1 (1000 : ℤ) (by norm_num) this
    · have : (3/5 * τ + 2/5 * uf) * 1 * 100 ≤ 100 * 1 := by nlinarith
      exact round_to_le_of_le 1 (1000 : ℤ) (by norm_num) this

/-- C9.  Under the default 30/90/365 thresholds the usage factor and label follow
exactly the table stated in the spec. -/
theorem C9_usage_factor_table (u : UsagePattern) :
    calculate_usage_factor defaultAssuranceConfig u = specUsageFactor u := by
  unfold calculate_usage_factor specUsageFactor defaultAssuranceConfig
  rcases hd : u.last_accessed_days_ago with _ | d <;> split_ifs <;> simp_all

/-- C10.  A grant whose resource id has no record resolves to sensitivity
"Internal", and every unknown or empty sensitivity string takes the Internal
ceiling 0.85 — the scorer neither fails nor treats such grants as Critical. -/
theorem C10_unknown_sensitivity_internal (resources : List (String × String))
    (rid level : String)
    (hmiss : resources.find? (fun p => p.1 = rid) = none)
    (hlev : level = "" ∨ upperStr level ∉ ["PUBLIC", "INTERNAL", "CONFIDENTIAL", "CRITICAL"]) :
    get_ceiling defaultSensitivityConfig (grant_sensitivity resources rid) = 0.85 ∧
    get_ceiling defaultSensitivityConfig level = 0.85 := by
  constructor
  · unfold grant_sensitivity
    rw [hmiss]
    with_unfolding_all decide
  · simp only [get_ceiling]
    rcases hlev with hlev | hlev
    · rw [if_pos hlev, if_neg (by decide), if_pos (by decide)]
      norm_num [defaultSensitivityConfig]
    · simp only [List.mem_cons, List.not_mem_nil, or_false, not_or] at hlev
      obtain ⟨h1, h2, h3, h4⟩ := hlev
      by_cases he : level = ""
      · rw [if_pos he, if_neg (by decide), if_pos (by decide)]
        norm_num [defaultSensitivityConfig]
      · rw [if_neg he, if_neg h1, if_neg h2, if_neg h3, if_neg h4]
        norm_num [defaultSensitivityConfig]

/-- Witness for C10 at a concrete missing resource and unknown sensitivity string. -/
theorem C10_unknown_sensitivity_internal_witness :
    get_ceiling defaultSensitivityConfig (grant_sensitivity [] "res-1") = 0.85 ∧
    get_ceiling defaultSensitivityConfig "TopSecret" = 0.85 :=
  C10_unknown_sensitivity_internal [] "res-1" "TopSecret" (by decide) (by decide)

/-! ## Consensus-score and consensus-cluster lemmas -/

theorem pairwiseSims_eq_filtered (sets : List (Finset String)) :
    pairwiseSims sets =
      ((listPairs sets).filter (fun p => decide (p.1 ≠ ∅) || decide (p.2 ≠ ∅))).map
        (fun p => jaccardOf p.1 p.2) := by
  induction sets with
  | nil => rfl
  | cons s rest ih =>
    have aux : ∀ ts : List (Finset String),
        ts.filterMap (fun t => if s ≠ ∅ ∨ t ≠ ∅ then some (jaccardOf s t) else none) =
        ((ts.map (fun b => (s, b))).filter (fun p => decide (p.1 ≠ ∅) || decide (p.2 ≠ ∅))).map
          (fun p => jaccardOf p.1 p.2) := by
      intro ts
      induction ts with
      | nil => rfl
      | cons t ts ih2 =>
        by_cases h : s ≠ ∅ ∨ t ≠ ∅
        · simp only [List.filterMap_cons, List.map_cons, List.filter_cons, if_pos h, ih2]
          have hb : (decide (s ≠ ∅) || decide (t ≠ ∅)) = true := by
            rcases h with h | h <;> simp [h]
          rw [if_pos hb]
          simp
        · simp only [List.filterMap_cons, List.map_cons, List.filter_cons, if_neg h, ih2]
          rw [not_or] at h
          have hs : s = ∅ := not_not.mp h.1
          have ht : t = ∅ := not_not.mp h.2
          rw [if_neg (by simp [hs, ht])]
    simp only [pairwiseSims, listPairs, List.filter_append, List.map_append, ih, aux]

/-- C5 (amended).  With exactly one successful strategy the consensus score is 1;
with at least two it is the mean of Jaccard over the unordered pairs having at
least one non-empty peer set (0 when every pair has both sets empty). -/
theorem C5_consensus_score_amended (all : List StrategyAssignments) (e : String) :
    ((empStrategies all e).length = 1 → consensusScoreOf all e = 1) ∧
    (2 ≤ (empStrategies all e).length →
      consensusScoreOf all e = specConsensusScore (peerSetsFor all e)) := by
  have hlenps : (peerSetsFor all e).length = (empStrategies all e).length := by
    simp [peerSetsFor]
  constructor
  · intro h1
    have hne : empStrategies all e ≠ [] := by
      intro h; rw [h] at h1; simp at h1
    unfold consensusScoreOf consensusScoreSets
    rw [if_neg hne, if_neg (by omega : ¬ 2 ≤ (peerSetsFor all e).length)]
  · intro h2
    have hne : empStrategies all e ≠ [] := by
      intro h; rw [h] at h2; simp at h2
    unfold consensusScoreOf consensusScoreSets specConsensusScore meanOrZero
    rw [if_neg hne, if_pos (by omega : 2 ≤ (peerSetsFor all e).length)]
    rw [pairwiseSims_eq_filtered]
    set ps := (listPairs (peerSetsFor all e)).filter
      (fun p => decide (p.1 ≠ ∅) || decide (p.2 ≠ ∅)) with hps
    by_cases hempty : ps = []
    · simp [hempty]
    · rw [if_neg (by simp [hempty]), if_neg hempty]
      simp

/-- `exAllC5`: two strategies, each voting employee "a" an outlier. -/
def exAllC5 : List StrategyAssignments :=
  [[("a", ⟨"a", -1, 0, true⟩)], [("a", ⟨"a", -1, 0, true⟩)]]

/-- Counterexample to C5 as stated: with two strategies both voting "a" an
outlier the code's consensus score is 0.0, while the claimed formula — mean
over ALL pairs with Jaccard(∅,∅) = 1 — gives 1.0. -/
theorem C5_all_outlier_counterexample :
    consensusScoreOf exAllC5 "a" = 0 ∧
    claimConsensusScore (peerSetsFor exAllC5 "a") = 1 ∧ (0 : ℚ) ≠ 1 := by
  refine ⟨by decide, ?_, by norm_num⟩
  with_unfolding_all decide

def exW5one : List StrategyAssignments := [[("a", ⟨"a", 0, 0, false⟩)]]

def exW5two : List StrategyAssignments :=
  [ [("a", ⟨"a", 0, 0, false⟩), ("b", ⟨"b", 0, 0, false⟩)],
    [("a", ⟨"a", 1, 0, false⟩), ("b", ⟨"b", 1, 0, false⟩)] ]

/-- Witness for the amended C5 at one- and two-strategy inputs. -/
theorem C5_consensus_score_amended_witness :
    consensusScoreOf exW5one "a" = 1 ∧
    consensusScoreOf exW5two "a" = specConsensusScore (peerSetsFor exW5two "a") :=
  ⟨(C5_consensus_score_amended exW5one "a").1 (by decide),
   (C5_consensus_score_amended exW5two "a").2 (by decide)⟩

theorem exists_image_max {α : Type} (f : α → ℕ) :
    ∀ l : List α, l ≠ [] → ∃ x ∈ l, ∀ y ∈ l, f y ≤ f x
  | [], h => absurd rfl h
  | [a], _ => ⟨a, by simp⟩
  | a :: b :: t, _ => by
    obtain ⟨x, hx, hmax⟩ := exists_image_max f (b :: t) (by simp)
    by_cases h : f x ≤ f a
    · refine ⟨a, by simp, ?_⟩
      intro y hy
      rcases List.mem_cons.mp hy with rfl | hy2
      · exact le_refl _
      · exact le_trans (hmax y hy2) h
    · refine ⟨x, by simp [List.mem_cons.mp hx], ?_⟩
      intro y hy
      rcases List.mem_cons.mp hy with rfl | hy2
      · omega
      · exact hmax y hy2

theorem find?_first_indexOf {α : Type} [DecidableEq α] (p : α → Bool) :
    ∀ (l : List α) (a : α), l.find? p = some a →
      ∀ x ∈ l, p x = true → l.indexOf a ≤ l.indexOf x := by
  intro l
  induction l with
  | nil => intro a ha; simp at ha
  | cons b t ih =>
    intro a ha x hx hpx
    by_cases hb : p b = true
    · rw [List.find?_cons_of_pos _ hb] at ha
      obtain rfl : b = a := by injection ha
      simp [List.indexOf_cons_self]
    · rw [List.find?_cons_of_neg _ hb] at ha
      have hpa : p a = true := List.find?_some ha
      have hab : a ≠ b := fun hdata => hb (hdata ▸ hpa)
      have hxb : x ≠ b := fun hdata => hb (hdata ▸ hpx)
      rcases List.mem_cons.mp hx with rfl | hxt
      · exact absurd rfl hxb
      · rw [List.indexOf_cons_ne _ (Ne.symm hab), List.indexOf_cons_ne _ (Ne.symm hxb)]
        exact Nat.succ_le_succ (ih a ha x hxt hpx)

theorem mostCommonFirst_isFirstMode (l : List ℤ) (hl : l ≠ []) :
    IsFirstMode l (mostCommonFirst l) := by
  obtain ⟨x, hx, hmax⟩ := exists_image_max (fun y => l.count y) l hl
  have hfind : (l.find? (fun y => l.all (fun z => l.count z ≤ l.count y))).isSome := by
    rw [List.find?_isSome]
    refine ⟨x, hx, ?_⟩
    simp only [List.all_eq_true, decide_eq_true_eq]
    exact fun z hz => hmax z hz
  obtain ⟨mv, hmv⟩ := Option.isSome_iff_exists.mp hfind
  have hres : mostCommonFirst l = mv := by
    unfold mostCommonFirst
    rw [hmv]
    rfl
  rw [hres]
  have hp := List.find?_some hmv
  simp only [List.all_eq_true, decide_eq_true_eq] at hp
  refine ⟨List.mem_of_find?_eq_some hmv, hp, ?_⟩
  intro y hy hcy
  have hpy : (fun w => l.all (fun z => l.count z ≤ l.count w)) y = true := by
    simp only [List.all_eq_true, decide_eq_true_eq]
    intro z hz
    rw [hcy]
    exact hp z hz
  exact find?_first_indexOf _ l mv hmv y hy hpy

/-- C6 (amended).  For an employee with at least one successful strategy the
consensus cluster id is -1 when every vote is an outlier vote, and otherwise the
non-outlier cluster id of maximal multiplicity with ties broken by FIRST
occurrence in strategy order (the `Counter.most_common` tie-break), not by
smallest id. -/
theorem C6_consensus_cluster_amended (all : List StrategyAssignments) (e : String)
    (h1 : empStrategies all e ≠ []) :
    (nonOutlierClustersOf all e = [] → consensusClusterIdOf all e = some (-1)) ∧
    (nonOutlierClustersOf all e ≠ [] →
      consensusClusterIdOf all e = some (mostCommonFirst (nonOutlierClustersOf all e)) ∧
      IsFirstMode (nonOutlierClustersOf all e) (mostCommonFirst (nonOutlierClustersOf all e))) := by
  unfold consensusClusterIdOf
  rw [if_neg h1]
  constructor
  · intro h
    rw [if_pos h]
  · intro h
    rw [if_neg h]
    exact ⟨rfl, mostCommonFirst_isFirstMode _ h⟩

/-- `exAllC6`: two strategies, employee "a" in cluster 5 under the first and
cluster 2 under the second (a tie of multiplicities). -/
def exAllC6 : List StrategyAssignments :=
  [ [("a", ⟨"a", 5, 0, false⟩), ("b", ⟨"b", 5, 0, false⟩)],
    [("a", ⟨"a", 2, 0, false⟩), ("b", ⟨"b", 2, 0, false⟩)] ]

/-- Counterexample to C6 as stated: on a tie the code keeps the FIRST-seen
cluster id (5), while the claim's smallest-id tie-break demands 2; the returned
id 5 is not the minimal mode. -/
theorem C6_tiebreak_counterexample :
    consensusClusterIdOf exAllC6 "a" = some 5 ∧
    ¬ IsMinMode (nonOutlierClustersOf exAllC6 "a") 5 ∧
    IsMinMode (nonOutlierClustersOf exAllC6 "a") 2 := by
  refine ⟨by decide, by decide, by decide⟩

def exW6 : List StrategyAssignments :=
  [ [("a", ⟨"a", 7, 0, false⟩)], [("a", ⟨"a", 7, 0, false⟩)], [("a", ⟨"a", 3, 0, false⟩)] ]

def exW6out : List StrategyAssignments := [[("a", ⟨"a", -1, 0, true⟩)]]

/-- Witness for the amended C6 at a majority input and an all-outlier input. -/
theorem C6_consensus_cluster_amended_witness :
    consensusClusterIdOf exW6out "a" = some (-1) ∧
    (consensusClusterIdOf exW6 "a" = some (mostCommonFirst (nonOutlierClustersOf exW6 "a")) ∧
      IsFirstMode (nonOutlierClustersOf exW6 "a") (mostCommonFirst (nonOutlierClustersOf exW6 "a"))) :=
  ⟨(C6_consensus_cluster_amended exW6out "a" (by decide)).1 (by decide),
   (C6_consensus_cluster_amended exW6 "a" (by decide)).2 (by decide)⟩

/-! ## Graph-community lemmas -/

theorem clusterOfC_mem (cs : List (Finset String)) (e : String) (i : ℕ)
    (hi : i < cs.length) (hei : e ∈ cs.getD i ∅) :
    ∃ j : ℕ, clusterOfC cs e = (j : ℤ) ∧ e ∈ cs.getD j ∅ := by
  have hgd : cs.getD i ∅ = cs[i] := by
    rw [List.getD_eq_getElem?_getD, List.getElem?_eq_getElem hi]
    rfl
  have hsome : (cs.enum.reverse.find? (fun p => decide (e ∈ p.2))).isSome := by
    rw [List.find?_isSome]
    refine ⟨(i, cs.getD i ∅), ?_, by simpa using hei⟩
    rw [List.mem_reverse, List.mem_enum_iff_getElem?]
    rw [hgd]
    exact List.getElem?_eq_getElem hi
  obtain ⟨p, hp⟩ := Option.isSome_iff_exists.mp hsome
  have hmem := List.mem_of_find?_eq_some hp
  rw [List.mem_reverse, List.mem_enum_iff_getElem?] at hmem
  have hpe := List.find?_some hp
  simp only [decide_eq_true_eq] at hpe
  refine ⟨p.1, ?_, ?_⟩
  · unfold clusterOfC
    rw [hp]
  · rw [List.getD_eq_getElem?_getD, hmem]
    exact hpe

/-- C7 (amended).  With the spec-modelled Louvain output (a partition in which
edge-less employees form singletons): an employee incident to no edge is in a
singleton community, and an employee with no edge into its own community gets
confidence 0.5 — the source's fallback — not 0. -/
theorem C7_graph_community_amended (mat : ℕ → ℕ → ℚ) (ids : List String) (minw : ℚ)
    (cs : List (Finset String)) (e : String)
    (hL : LouvainOutput ids (gcEdges mat ids minw) cs)
    (he : e ∈ ids)
    (hno : ∀ p ∈ gcNeighbors (gcEdges mat ids minw) e,
      p.1 ∉ cs.getD (clusterOfC cs e).toNat ∅) :
    (gcNeighbors (gcEdges mat ids minw) e = [] →
      ∀ i ∈ List.range cs.length, e ∈ cs.getD i ∅ → cs.getD i ∅ = {e}) ∧
    gcConfidence (gcEdges mat ids minw) cs e = 0.5 := by
  obtain ⟨hcov, hdisj, hiso⟩ := hL
  refine ⟨fun hisol => hiso e he hisol, ?_⟩
  obtain ⟨i, hi, hei⟩ := hcov e he
  rw [List.mem_range] at hi
  obtain ⟨j, hj, hej⟩ := clusterOfC_mem cs e i hi hei
  unfold gcConfidence
  rw [hj]
  have htn : ((j : ℤ)).toNat = j := Int.toNat_natCast j
  rw [if_pos (Int.natCast_nonneg j)]
  rw [htn]
  have hfilter : (gcNeighbors (gcEdges mat ids minw) e).filter
      (fun p => decide (p.1 ∈ cs.getD j ∅)) = [] := by
    rw [List.filter_eq_nil_iff]
    intro p hp
    simp only [decide_eq_true_eq]
    have hnp := hno p hp
    rw [hj, htn] at hnp
    exact hnp
  simp only [hfilter]
  simp

/-- Zero proximity matrix on two employees: no pair reaches the 0.2 edge
threshold, so the graph has no edge at all. -/
def exMat7 : ℕ → ℕ → ℚ := fun _ _ => 0

def exIds7 : List String := ["a", "b"]

def exCs7 : List (Finset String) := [{"a"}, {"b"}]

/-- Counterexample to C7 as stated: employee "a" has no incident edge, the
communities satisfy the spec-modelled Louvain contract, and the code assigns
confidence 0.5 — not the 0 the claim requires. -/
theorem C7_confidence_counterexample :
    LouvainOutput exIds7 (gcEdges exMat7 exIds7 0.2) exCs7 ∧
    gcNeighbors (gcEdges exMat7 exIds7 0.2) "a" = [] ∧
    gcConfidence (gcEdges exMat7 exIds7 0.2) exCs7 "a" = 0.5 ∧ (0.5 : ℚ) ≠ 0 := by
  refine ⟨?_, ?_, ?_, by norm_num⟩ <;> with_unfolding_all decide

/-- Matrix for the C7 witness: ids "x","y","z"; one edge x–y of weight 0.5,
employee "z" isolated. -/
def exMat7w : ℕ → ℕ → ℚ := fun i j => if i = 0 ∧ j = 1 then 1/2 else 0

def exIds7w : List String := ["x", "y", "z"]

def exCs7w : List (Finset String) := [{"x", "y"}, {"z"}]

/-- Witness for the amended C7: the isolated employee "z" sits in the singleton
community and receives confidence 0.5. -/
theorem C7_graph_community_amended_witness :
    gcConfidence (gcEdges exMat7w exIds7w (1/5)) exCs7w "z" = 0.5 :=
  (C7_graph_community_amended exMat7w exIds7w (1/5) exCs7w "z"
    (by with_unfolding_all decide) (by decide) (by with_unfolding_all decide)).2

/-! ## Proximity bounds -/

theorem ite_nonneg_real {c : Prop} [Decidable c] {a b : ℝ} (ha : 0 ≤ a) (hb : 0 ≤ b) :
    0 ≤ if c then a else b := by
  split_ifs <;> assumption

theorem chainTerm_nonneg (a b : EmployeeFeatures)
    (mc : Option (List (String × List String))) : 0 ≤ chainTerm a b mc := by
  unfold chainTerm
  rcases mc with _ | mcl
  · norm_num
  · dsimp only
    split_ifs
    · norm_num
    · rcases hm : (((chainOf mcl a.employee_id).filter
          (fun x => decide (x ∈ chainOf mcl b.employee_id))).map (fun anc =>
          (if anc ∈ chainOf mcl a.employee_id then (chainOf mcl a.employee_id).indexOf anc else 999) +
          (if anc ∈ chainOf mcl b.employee_id then (chainOf mcl b.employee_id).indexOf anc else 999))).min?
        with _ | d
      · norm_num
      · show (0:ℝ) ≤ 0.2 * (1 / (1 + (d : ℝ)))
        positivity

theorem structural_bounds (a b : EmployeeFeatures)
    (mc : Option (List (String × List String))) :
    0 ≤ calculate_structural_proximity a b mc ∧ calculate_structural_proximity a b mc ≤ 1 := by
  unfold calculate_structural_proximity
  dsimp only
  refine ⟨le_min ?_ (by norm_num), min_le_right _ _⟩
  have h2 := chainTerm_nonneg a b mc
  have h1 : (0:ℝ) ≤ if optTruthy a.manager_id ∧ a.manager_id = b.manager_id then 0.3 else 0 :=
    ite_nonneg_real (by norm_num) (by norm_num)
  have h3 : (0:ℝ) ≤ if optTruthy a.team_id ∧ a.team_id = b.team_id then 0.2 else 0 :=
    ite_nonneg_real (by norm_num) (by norm_num)
  have h4 : (0:ℝ) ≤ if optTruthy a.sub_lob_id ∧ a.sub_lob_id = b.sub_lob_id then 0.15 else 0 :=
    ite_nonneg_real (by norm_num) (by norm_num)
  have h5 : (0:ℝ) ≤ if optTruthy a.lob_id ∧ a.lob_id = b.lob_id then 0.1 else 0 :=
    ite_nonneg_real (by norm_num) (by norm_num)
  have h6 : (0:ℝ) ≤ if optTruthy a.location_id ∧ a.location_id = b.location_id then 0.05 else 0 :=
    ite_nonneg_real (by norm_num) (by norm_num)
  linarith

theorem functional_bounds (a b : EmployeeFeatures) :
    0 ≤ calculate_functional_proximity a b ∧ calculate_functional_proximity a b ≤ 1 := by
  unfold calculate_functional_proximity
  dsimp only
  refine ⟨le_min ?_ (by norm_num), min_le_right _ _⟩
  have h1 : (0:ℝ) ≤ if a.job_code ≠ "" ∧ a.job_code = b.job_code then 0.35 else 0 :=
    ite_nonneg_real (by norm_num) (by norm_num)
  have h2 : (0:ℝ) ≤ if a.job_family ≠ "" ∧ a.job_family = b.job_family then 0.25 else 0 :=
    ite_nonneg_real (by norm_num) (by norm_num)
  have h3 : (0:ℝ) ≤ if 0 < a.job_level ∧ 0 < b.job_level then
      0.2 * max 0 (1 - ((|a.job_level - b.job_level| : ℤ) : ℝ) / 7) else 0 := by
    refine ite_nonneg_real ?_ (by norm_num)
    have := le_max_left (0:ℝ) (1 - ((|a.job_level - b.job_level| : ℤ) : ℝ) / 7)
    nlinarith
  have h4 : (0:ℝ) ≤ if optTruthy a.cost_center_id ∧ a.cost_center_id = b.cost_center_id
      then 0.2 else 0 := ite_nonneg_real (by norm_num) (by norm_num)
  linarith

theorem actLookup_nonneg (v : List (String × ℚ)) (hv : ∀ p ∈ v, 0 ≤ p.2) (r : String) :
    0 ≤ actLookup v r := by
  unfold actLookup
  cases hf : v.find? (fun p => p.1 = r) with
  | none => simp
  | some p => exact hv p (List.mem_of_find?_eq_some hf)

theorem behavioral_bounds (a b : EmployeeFeatures)
    (ha : ∀ p ∈ a.activity_vector, 0 ≤ p.2) (hb : ∀ p ∈ b.activity_vector, 0 ≤ p.2) :
    0 ≤ calculate_behavioral_proximity a b ∧ calculate_behavioral_proximity a b ≤ 1 := by
  unfold calculate_behavioral_proximity
  dsimp only
  refine ⟨le_min ?_ (by norm_num), min_le_right _ _⟩
  have h1 : (0:ℝ) ≤ (if a.access_set ≠ ∅ ∨ b.access_set ≠ ∅ then
      if 0 < (a.access_set ∪ b.access_set).card then
        0.5 * (((a.access_set ∩ b.access_set).card : ℝ) / (a.access_set ∪ b.access_set).card)
      else 0 else 0) := by
    refine ite_nonneg_real (ite_nonneg_real ?_ (by norm_num)) (by norm_num)
    positivity
  have h2 : (0:ℝ) ≤ (if a.activity_vector ≠ [] ∧ b.activity_vector ≠ [] then
      if actKeys a.activity_vector ∪ actKeys b.activity_vector ≠ ∅ then
        if 0 < (∑ r ∈ actKeys a.activity_vector ∪ actKeys b.activity_vector,
              actLookup a.activity_vector r ^ 2) ∧
           0 < (∑ r ∈ actKeys a.activity_vector ∪ actKeys b.activity_vector,
              actLookup b.activity_vector r ^ 2) then
          0.5 * ((((∑ r ∈ actKeys a.activity_vector ∪ actKeys b.activity_vector,
              actLookup a.activity_vector r * actLookup b.activity_vector r) : ℚ) : ℝ) /
            (Real.sqrt ((((∑ r ∈ actKeys a.activity_vector ∪ actKeys b.activity_vector,
              actLookup a.activity_vector r ^ 2) : ℚ) : ℝ)) *
             Real.sqrt ((((∑ r ∈ actKeys a.activity_vector ∪ actKeys b.activity_vector,
              actLookup b.activity_vector r ^ 2) : ℚ) : ℝ))))
        else 0 else 0 else 0) := by
    refine ite_nonneg_real (ite_nonneg_real (ite_nonneg_real ?_ (by norm_num)) (by norm_num))
      (by norm_num)
    have hdot : (0:ℚ) ≤ ∑ r ∈ actKeys a.activity_vector ∪ actKeys b.activity_vector,
        actLookup a.activity_vector r * actLookup b.activity_vector r := by
      refine Finset.sum_nonneg fun r _ => ?_
      exact mul_nonneg (actLookup_nonneg _ ha r) (actLookup_nonneg _ hb r)
    have hcast : (0:ℝ) ≤ (((∑ r ∈ actKeys a.activity_vector ∪ actKeys b.activity_vector,
        actLookup a.activity_vector r * actLookup b.activity_vector r) : ℚ) : ℝ) := by
      exact_mod_cast hdot
    have hs1 := Real.sqrt_nonneg ((((∑ r ∈ actKeys a.activity_vector ∪ actKeys b.activity_vector,
        actLookup a.activity_vector r ^ 2) : ℚ) : ℝ))
    have hs2 := Real.sqrt_nonneg ((((∑ r ∈ actKeys a.activity_vector ∪ actKeys b.activity_vector,
        actLookup b.activity_vector r ^ 2) : ℚ) : ℝ))
    have := div_nonneg hcast (mul_nonneg hs1 hs2)
    linarith
  linarith

theorem temporal_bounds (a b : EmployeeFeatures) :
    0 ≤ calculate_temporal_proximity a b ∧ calculate_temporal_proximity a b ≤ 1 := by
  unfold calculate_temporal_proximity
  dsimp only
  refine ⟨le_min ?_ (by norm_num), min_le_right _ _⟩
  have h1 : (0:ℝ) ≤ if 0 < a.tenure_days ∧ 0 < b.tenure_days then
      0.4 * Real.exp (-(((|a.tenure_days - b.tenure_days| : ℤ) : ℝ) ^ 2) / (2 * 365 ^ 2))
    else 0 := by
    refine ite_nonneg_real ?_ (by norm_num)
    have := Real.exp_pos (-(((|a.tenure_days - b.tenure_days| : ℤ) : ℝ) ^ 2) / (2 * 365 ^ 2))
    nlinarith
  have h2 : (0:ℝ) ≤ if 0 < a.time_in_role_days ∧ 0 < b.time_in_role_days then
      0.3 * Real.exp (-(((|a.time_in_role_days - b.time_in_role_days| : ℤ) : ℝ) ^ 2) / (2 * 180 ^ 2))
    else 0 := by
    refine ite_nonneg_real ?_ (by norm_num)
    have := Real.exp_pos (-(((|a.time_in_role_days - b.time_in_role_days| : ℤ) : ℝ) ^ 2) / (2 * 180 ^ 2))
    nlinarith
  have h3 : (0:ℝ) ≤ if a.hire_quarter ≠ "" ∧ a.hire_quarter = b.hire_quarter then 0.3 else 0 :=
    ite_nonneg_real (by norm_num) (by norm_num)
  linarith

theorem calculate_proximity_bounds (w : ProximityWeights) (a b : EmployeeFeatures)
    (mc : Option (List (String × List String)))
    (hw : 0 ≤ w.structural ∧ 0 ≤ w.functional ∧ 0 ≤ w.behavioral ∧ 0 ≤ w.temporal)
    (ha : ∀ p ∈ a.activity_vector, 0 ≤ p.2) (hb : ∀ p ∈ b.activity_vector, 0 ≤ p.2) :
    0 ≤ calculate_proximity w a b mc ∧ calculate_proximity w a b mc ≤ ((w.total : ℚ) : ℝ) := by
  obtain ⟨hw1, hw2, hw3, hw4⟩ := hw
  have c1 : (0:ℝ) ≤ (w.structural : ℝ) := by exact_mod_cast hw1
  have c2 : (0:ℝ) ≤ (w.functional : ℝ) := by exact_mod_cast hw2
  have c3 : (0:ℝ) ≤ (w.behavioral : ℝ) := by exact_mod_cast hw3
  have c4 : (0:ℝ) ≤ (w.temporal : ℝ) := by exact_mod_cast hw4
  have b1 := structural_bounds a b mc
  have b2 := functional_bounds a b
  have b3 := behavioral_bounds a b ha hb
  have b4 := temporal_bounds a b
  unfold calculate_proximity
  have htot : ((w.total : ℚ) : ℝ) =
      (w.structural : ℝ) + (w.functional : ℝ) + (w.behavioral : ℝ) + (w.temporal : ℝ) := by
    unfold ProximityWeights.total
    push_cast
    ring
  constructor
  · have m1 := mul_nonneg c1 b1.1
    have m2 := mul_nonneg c2 b2.1
    have m3 := mul_nonneg c3 b3.1
    have m4 := mul_nonneg c4 b4.1
    linarith
  · rw [htot]
    have m1 := mul_le_of_le_one_right c1 b1.2
    have m2 := mul_le_of_le_one_right c2 b2.2
    have m3 := mul_le_of_le_one_right c3 b3.2
    have m4 := mul_le_of_le_one_right c4 b4.2
    linarith

/-! ## Matrix write lemmas -/

theorem applyWrites_preserves (W : ℝ) (l : List (ℕ × ℕ × ℝ)) :
    ∀ m : ℕ → ℕ → ℝ, (∀ x y, m x y = m y x) → (∀ x y, 0 ≤ m x y ∧ m x y ≤ W) →
    (∀ t ∈ l, 0 ≤ t.2.2 ∧ t.2.2 ≤ W) →
    (∀ x y, applyWrites l m x y = applyWrites l m y x) ∧
    (∀ x y, 0 ≤ applyWrites l m x y ∧ applyWrites l m x y ≤ W) := by
  induction l with
  | nil => intro m hs hb _; exact ⟨hs, hb⟩
  | cons hd rest ih =>
    obtain ⟨i, j, v⟩ := hd
    intro m hs hb hl
    have hv := hl (i, j, v) (by simp)
    refine ih _ ?_ ?_ (fun t ht => hl t (by simp [ht]))
    · intro x y
      unfold matWrite
      split_ifs <;> first | rfl | exact hs x y | tauto
    · intro x y
      unfold matWrite
      split_ifs <;> first | exact hv | exact hb x y

theorem mem_foldr_append {α β : Type} (f : β → List α) (ks : List β) (t : α) :
    t ∈ ks.foldr (fun k acc => f k ++ acc) [] ↔ ∃ k ∈ ks, t ∈ f k := by
  induction ks with
  | nil => simp
  | cons k ks ih => simp [ih]

theorem lookupFeatures_act_nonneg (features : List (String × EmployeeFeatures))
    (hf : ∀ p ∈ features, ∀ q ∈ p.2.activity_vector, 0 ≤ q.2) (id : String)
    (fa : EmployeeFeatures) (h : lookupFeatures features id = some fa) :
    ∀ q ∈ fa.activity_vector, 0 ≤ q.2 := by
  unfold lookupFeatures at h
  cases hfind : features.find? (fun p => p.1 = id) with
  | none => rw [hfind] at h; simp at h
  | some p0 =>
    rw [hfind] at h
    have hp0 : p0.2 = fa := by
      simpa using h
    intro q hq
    exact hf p0 (List.mem_of_find?_eq_some hfind) q (by rw [hp0]; exact hq)

theorem fullWrites_bounds (w : ProximityWeights) (features : List (String × EmployeeFeatures))
    (chains : Option (List (String × List String))) (ids : List String)
    (hw : 0 ≤ w.structural ∧ 0 ≤ w.functional ∧ 0 ≤ w.behavioral ∧ 0 ≤ w.temporal)
    (hf : ∀ p ∈ features, ∀ q ∈ p.2.activity_vector, 0 ≤ q.2) :
    ∀ t ∈ fullWrites w features chains ids, 0 ≤ t.2.2 ∧ t.2.2 ≤ ((w.total : ℚ) : ℝ) := by
  intro t ht
  unfold fullWrites at ht
  rw [List.mem_filterMap] at ht
  obtain ⟨p, _, heq⟩ := ht
  rcases hfa : lookupFeatures features p.1.2 with _ | fa <;> rw [hfa] at heq
  · simp at heq
  rcases hfb : lookupFeatures features p.2.2 with _ | fb <;> rw [hfb] at heq
  · simp at heq
  have ht22 : t.2.2 = calculate_proximity w fa fb chains := by
    obtain rfl : (p.1.1, p.2.1, calculate_proximity w fa fb chains) = t := by
      simpa using heq
    rfl
  rw [ht22]
  exact calculate_proximity_bounds w fa fb chains hw
    (lookupFeatures_act_nonneg features hf _ fa hfa)
    (lookupFeatures_act_nonneg features hf _ fb hfb)

theorem blockWrites_bounds (w : ProximityWeights) (features : List (String × EmployeeFeatures))
    (chains : Option (List (String × List String))) (ids : List String)
    (hw : 0 ≤ w.structural ∧ 0 ≤ w.functional ∧ 0 ≤ w.behavioral ∧ 0 ≤ w.temporal)
    (hf : ∀ p ∈ features, ∀ q ∈ p.2.activity_vector, 0 ≤ q.2) :
    ∀ t ∈ blockWrites w features chains ids, 0 ≤ t.2.2 ∧ t.2.2 ≤ ((w.total : ℚ) : ℝ) := by
  intro t ht
  unfold blockWrites at ht
  rw [mem_foldr_append] at ht
  obtain ⟨k, _, ht⟩ := ht
  rw [List.mem_filterMap] at ht
  obtain ⟨p, _, heq⟩ := ht
  rcases hfa : lookupFeatures features p.1 with _ | fa <;> rw [hfa] at heq
  · simp at heq
  rcases hfb : lookupFeatures features p.2 with _ | fb <;> rw [hfb] at heq
  · simp at heq
  have ht22 : t.2.2 = calculate_proximity w fa fb chains := by
    obtain rfl : (idToIdx ids p.1, idToIdx ids p.2, calculate_proximity w fa fb chains) = t := by
      simpa using heq
    rfl
  rw [ht22]
  exact calculate_proximity_bounds w fa fb chains hw
    (lookupFeatures_act_nonneg features hf _ fa hfa)
    (lookupFeatures_act_nonneg features hf _ fb hfb)

/-! ## Weight-normalization lemmas -/

theorem normalize_total (w : ProximityWeights) (h0 : w.total ≠ 0) :
    w.normalize.total = 1 := by
  unfold ProximityWeights.normalize
  rw [if_neg h0]
  show w.structural / w.total + w.functional / w.total +
      w.behavioral / w.total + w.temporal / w.total = 1
  rw [div_add_div_same, div_add_div_same, div_add_div_same]
  exact div_self h0

theorem initWeights_nonneg (w : ProximityWeights)
    (hw : 0 ≤ w.structural ∧ 0 ≤ w.functional ∧ 0 ≤ w.behavioral ∧ 0 ≤ w.temporal) :
    0 ≤ (initWeights w).structural ∧ 0 ≤ (initWeights w).functional ∧
    0 ≤ (initWeights w).behavioral ∧ 0 ≤ (initWeights w).temporal := by
  obtain ⟨h1, h2, h3, h4⟩ := hw
  unfold initWeights
  split_ifs
  · exact ⟨h1, h2, h3, h4⟩
  · unfold ProximityWeights.normalize
    split_ifs with h0
    · norm_num
    · have htot : 0 ≤ w.total := by unfold ProximityWeights.total; linarith
      exact ⟨div_nonneg h1 htot, div_nonneg h2 htot, div_nonneg h3 htot, div_nonneg h4 htot⟩

theorem initWeights_total_lt (w : ProximityWeights) : (initWeights w).total < 1.001 := by
  unfold initWeights
  split_ifs with hv
  · unfold ProximityWeights.validate at hv
    rw [decide_eq_true_eq] at hv
    have := abs_lt.mp hv
    have h1 : w.total < 1 + 0.001 := by linarith [this.2]
    calc w.total < 1 + 0.001 := h1
      _ = 1.001 := by norm_num
  · by_cases h0 : w.total = 0
    · unfold ProximityWeights.normalize
      rw [if_pos h0]
      norm_num [ProximityWeights.total]
    · rw [normalize_total w h0]
      norm_num

set_option maxRecDepth 8000

/-- C2 (amended).  For non-negative weights and extractor-shaped features
(non-negative activity intensities), the matrix is symmetric with unit diagonal;
every off-diagonal entry lies in `[0, W]` where `W` is the weight total AFTER the
constructor's silent renormalization, and `W < 1.001`.  Entries are in `[0, 1]`
exactly when `W ≤ 1`; the 0.001 validation tolerance lets them exceed 1. -/
theorem C2_matrix_invariants_amended (w : ProximityWeights) (ids : List String)
    (features : List (String × EmployeeFeatures))
    (chains : Option (List (String × List String))) (block_by_lob : Bool)
    (hw : 0 ≤ w.structural ∧ 0 ≤ w.functional ∧ 0 ≤ w.behavioral ∧ 0 ≤ w.temporal)
    (hf : ∀ p ∈ features, ∀ q ∈ p.2.activity_vector, 0 ≤ q.2) :
    (∀ x y, calculate_pairwise_proximity_matrix (initWeights w) ids features chains block_by_lob x y =
      calculate_pairwise_proximity_matrix (initWeights w) ids features chains block_by_lob y x) ∧
    (∀ i, i < ids.length →
      calculate_pairwise_proximity_matrix (initWeights w) ids features chains block_by_lob i i = 1) ∧
    (∀ x y, x ≠ y →
      0 ≤ calculate_pairwise_proximity_matrix (initWeights w) ids features chains block_by_lob x y ∧
      calculate_pairwise_proximity_matrix (initWeights w) ids features chains block_by_lob x y ≤
        (((initWeights w).total : ℚ) : ℝ)) ∧
    (initWeights w).total < 1.001 := by
  have hw' := initWeights_nonneg w hw
  have hW0 : (0:ℝ) ≤ (((initWeights w).total : ℚ) : ℝ) := by
    have h : 0 ≤ (initWeights w).total := by
      obtain ⟨a, b, c, d⟩ := hw'
      unfold ProximityWeights.total
      linarith
    exact_mod_cast h
  have hwrites : ∀ t ∈ (if block_by_lob then blockWrites (initWeights w) features chains ids
      else fullWrites (initWeights w) features chains ids),
      0 ≤ t.2.2 ∧ t.2.2 ≤ (((initWeights w).total : ℚ) : ℝ) := by
    cases block_by_lob
    · simpa using fullWrites_bounds (initWeights w) features chains ids hw' hf
    · simpa using blockWrites_bounds (initWeights w) features chains ids hw' hf
  have hinv := applyWrites_preserves (((initWeights w).total : ℚ) : ℝ)
    (if block_by_lob then blockWrites (initWeights w) features chains ids
     else fullWrites (initWeights w) features chains ids)
    (fun _ _ => 0) (fun _ _ => rfl) (fun _ _ => ⟨le_refl 0, hW0⟩) hwrites
  unfold calculate_pairwise_proximity_matrix fillDiag
  refine ⟨?_, ?_, ?_, initWeights_total_lt w⟩
  · intro x y
    by_cases hxy : x = y
    · rw [if_pos hxy, if_pos hxy.symm]
    · rw [if_neg hxy, if_neg (Ne.symm hxy)]
      exact hinv.1 x y
  · intro i _
    rw [if_pos rfl]
  · intro x y hxy
    rw [if_neg hxy]
    exact hinv.2 x y

/-- The matrix entry between the two employees of a two-id snapshot in
non-blocked mode is exactly their pairwise proximity. -/
theorem matrix_entry_two (w : ProximityWeights) (ch : Option (List (String × List String)))
    (fa fb : EmployeeFeatures) :
    calculate_pairwise_proximity_matrix w ["e1", "e2"] [("e1", fa), ("e2", fb)] ch false 0 1 =
      calculate_proximity w fa fb ch := by
  unfold calculate_pairwise_proximity_matrix
  have hwl : fullWrites w [("e1", fa), ("e2", fb)] ch ["e1", "e2"] =
      [(0, 1, calculate_proximity w fa fb ch)] := rfl
  have hbl : (if (false : Bool) then blockWrites w [("e1", fa), ("e2", fb)] ch ["e1", "e2"]
      else fullWrites w [("e1", fa), ("e2", fb)] ch ["e1", "e2"]) =
      [(0, 1, calculate_proximity w fa fb ch)] := by
    rw [if_neg (by simp), hwl]
  rw [hbl]
  simp only [applyWrites, fillDiag, matWrite]
  norm_num

/-- Weights passing validation only through the 0.001 tolerance: total 1.0009. -/
def exW2 : ProximityWeights := ⟨10009/10000, 0, 0, 0⟩

def exF2a : EmployeeFeatures :=
  { employee_id := "e1", manager_id := some "m", team_id := some "t",
    sub_lob_id := some "s", lob_id := some "l", location_id := some "o" }

def exF2b : EmployeeFeatures :=
  { employee_id := "e2", manager_id := some "m", team_id := some "t",
    sub_lob_id := some "s", lob_id := some "l", location_id := some "o" }

def exChains2 : Option (List (String × List String)) := some [("e1", ["x"]), ("e2", ["x"])]

theorem initWeights_exW2 : initWeights exW2 = exW2 := by
  have hv : exW2.validate = true := by with_unfolding_all decide
  simp only [initWeights, hv, if_true]

theorem structural_exF2 : calculate_structural_proximity exF2a exF2b exChains2 = 1 := by
  unfold calculate_structural_proximity
  dsimp only
  rw [if_pos (by decide), if_pos (by decide), if_pos (by decide), if_pos (by decide),
    if_pos (by decide)]
  rw [show chainTerm exF2a exF2b exChains2 = 0.2 * (1 / (1 + ((0:ℕ):ℝ))) from rfl]
  rw [show ((0.3:ℝ) + 0.2 * (1 / (1 + ((0:ℕ):ℝ))) + 0.2 + 0.15 + 0.1 + 0.05) = 1 by norm_num]
  exact min_self 1

/-- Counterexample to C2 as stated: the non-negative weights (1.0009, 0, 0, 0)
pass `validate` inside its 0.001 tolerance and are kept unnormalized, and two
fully matching employees then get off-diagonal proximity 1.0009 > 1. -/
theorem C2_entry_exceeds_one_counterexample :
    (0 ≤ exW2.structural ∧ 0 ≤ exW2.functional ∧ 0 ≤ exW2.behavioral ∧ 0 ≤ exW2.temporal) ∧
    1 < calculate_pairwise_proximity_matrix (initWeights exW2) ["e1", "e2"]
      [("e1", exF2a), ("e2", exF2b)] exChains2 false 0 1 := by
  constructor
  · refine ⟨?_, ?_, ?_, ?_⟩ <;> with_unfolding_all decide
  · rw [initWeights_exW2, matrix_entry_two]
    unfold calculate_proximity
    rw [structural_exF2]
    have hz1 : ((exW2.functional : ℚ) : ℝ) = 0 := by norm_num [exW2]
    have hz2 : ((exW2.behavioral : ℚ) : ℝ) = 0 := by norm_num [exW2]
    have hz3 : ((exW2.temporal : ℚ) : ℝ) = 0 := by norm_num [exW2]
    have hs : ((exW2.structural : ℚ) : ℝ) = 10009/10000 := by
      rw [show exW2.structural = 10009/10000 from rfl]
      push_cast
      norm_num
    rw [hz1, hz2, hz3, hs]
    ring_nf
    norm_num

def exWit2 : ProximityWeights := ⟨1/4, 7/20, 3/10, 1/10⟩

/-- Witness for the amended C2 at the default weights and a two-employee id
list with no feature records. -/
theorem C2_matrix_invariants_amended_witness :
    (calculate_pairwise_proximity_matrix (initWeights exWit2) ["a", "b"] [] none true 0 1 =
     calculate_pairwise_proximity_matrix (initWeights exWit2) ["a", "b"] [] none true 1 0) ∧
    calculate_pairwise_proximity_matrix (initWeights exWit2) ["a", "b"] [] none true 0 0 = 1 ∧
    (0 ≤ calculate_pairwise_proximity_matrix (initWeights exWit2) ["a", "b"] [] none true 0 1 ∧
     calculate_pairwise_proximity_matrix (initWeights exWit2) ["a", "b"] [] none true 0 1 ≤
       (((initWeights exWit2).total : ℚ) : ℝ)) ∧
    (initWeights exWit2).total < 1.001 :=
  ⟨(C2_matrix_invariants_amended exWit2 ["a", "b"] [] none true
      (by constructor <;> norm_num [exWit2]) (by simp)).1 0 1,
   (C2_matrix_invariants_amended exWit2 ["a", "b"] [] none true
      (by constructor <;> norm_num [exWit2]) (by simp)).2.1 0 (by norm_num),
   (C2_matrix_invariants_amended exWit2 ["a", "b"] [] none true
      (by constructor <;> norm_num [exWit2]) (by simp)).2.2.1 0 1 (by norm_num),
   (C2_matrix_invariants_amended exWit2 ["a", "b"] [] none true
      (by constructor <;> norm_num [exWit2]) (by simp)).2.2.2⟩

/-- C8 (amended).  For non-negative weights with positive total whose sum is
exactly 1 or at least 0.001 away from 1, the constructor yields the same
effective weights for `w` and for `w/Σw`, hence identical proximity matrices on
every snapshot (the only consumer of the weights) and identical pipeline
output; and weights (1,1,1,1) are normalized to exactly (0.25, 0.25, 0.25, 0.25).
Inside the open tolerance window 0 < |Σw-1| < 0.001 the validator keeps `w`
unnormalized and the equality can fail. -/
theorem C8_weight_renormalization_amended (w : ProximityWeights)
    (h0 : 0 ≤ w.structural ∧ 0 ≤ w.functional ∧ 0 ≤ w.behavioral ∧ 0 ≤ w.temporal)
    (hpos : 0 < w.total)
    (hout : w.total = 1 ∨ 0.001 ≤ |w.total - 1|) :
    initWeights w = initWeights w.normalize ∧
    (∀ ids features chains block,
      calculate_pairwise_proximity_matrix (initWeights w) ids features chains block =
      calculate_pairwise_proximity_matrix (initWeights w.normalize) ids features chains block) ∧
    initWeights ⟨1, 1, 1, 1⟩ = initWeights ⟨0.25, 0.25, 0.25, 0.25⟩ := by
  have hvn : (w.normalize).validate = true := by
    unfold ProximityWeights.validate
    rw [normalize_total w (ne_of_gt hpos)]
    norm_num
  have hn : initWeights w.normalize = w.normalize := by
    simp only [initWeights, hvn, if_true]
  have key : initWeights w = initWeights w.normalize := by
    rcases hout with h1 | h1
    · have hnw : w.normalize = w := by
        unfold ProximityWeights.normalize
        rw [if_neg (by rw [h1]; norm_num)]
        rw [h1]
        simp
      rw [hnw]
    · have hv : w.validate = false := by
        unfold ProximityWeights.validate
        rw [decide_eq_false_iff_not]
        exact not_lt.mpr h1
      have hiw : initWeights w = w.normalize := by
        simp only [initWeights, hv, Bool.false_eq_true, if_false]
      rw [hiw, hn]
  refine ⟨key, fun ids features chains block => by rw [key], ?_⟩
  have e1 : initWeights ⟨1, 1, 1, 1⟩ = ⟨1/4, 1/4, 1/4, 1/4⟩ := by with_unfolding_all decide
  have e2 : initWeights ⟨0.25, 0.25, 0.25, 0.25⟩ = ⟨1/4, 1/4, 1/4, 1/4⟩ := by
    have hv : (ProximityWeights.mk 0.25 0.25 0.25 0.25).validate = true := by
      with_unfolding_all decide
    simp only [initWeights, hv, if_true]
    have : (0.25 : ℚ) = 1/4 := by norm_num
    rw [this]
  rw [e1, e2]

/-- Weights with total 1.0009, inside the open tolerance window. -/
def exW8 : ProximityWeights := ⟨10009/10000, 0, 0, 0⟩

def exF8a : EmployeeFeatures := { employee_id := "e1", team_id := some "t" }

def exF8b : EmployeeFeatures := { employee_id := "e2", team_id := some "t" }

theorem structural_exF8 : calculate_structural_proximity exF8a exF8b none = 1/5 := by
  unfold calculate_structural_proximity
  dsimp only
  rw [if_neg (by decide), if_pos (by decide), if_neg (by decide), if_neg (by decide),
    if_neg (by decide)]
  rw [show chainTerm exF8a exF8b none = 0 from rfl]
  rw [show ((0:ℝ) + 0 + 0.2 + 0 + 0 + 0) = 1/5 by norm_num]
  exact min_eq_left (by norm_num)

theorem prox_exF8 (v : ProximityWeights) :
    calculate_proximity v exF8a exF8b none = ((v.structural : ℚ) : ℝ) * (1/5) +
      ((v.functional : ℚ) : ℝ) * calculate_functional_proximity exF8a exF8b +
      ((v.behavioral : ℚ) : ℝ) * calculate_behavioral_proximity exF8a exF8b +
      ((v.temporal : ℚ) : ℝ) * calculate_temporal_proximity exF8a exF8b := by
  unfold calculate_proximity
  rw [structural_exF8]

/-- Counterexample to C8 as stated: for the legal weights (1.0009, 0, 0, 0) the
validator accepts the unnormalized vector (|Σw - 1| = 0.0009 < 0.001), while the
normalized run uses (1, 0, 0, 0); the effective weights and the resulting
proximity matrices differ on a two-employee snapshot, so the pipeline results
are not the same. -/
theorem C8_tolerance_window_counterexample :
    (0 ≤ exW8.structural ∧ 0 ≤ exW8.functional ∧ 0 ≤ exW8.behavioral ∧ 0 ≤ exW8.temporal) ∧
    0 < exW8.total ∧
    initWeights exW8 ≠ initWeights exW8.normalize ∧
    calculate_pairwise_proximity_matrix (initWeights exW8) ["e1", "e2"]
      [("e1", exF8a), ("e2", exF8b)] none false 0 1 ≠
    calculate_pairwise_proximity_matrix (initWeights exW8.normalize) ["e1", "e2"]
      [("e1", exF8a), ("e2", exF8b)] none false 0 1 := by
  have h1 : initWeights exW8 = exW8 := by
    have hv : exW8.validate = true := by with_unfolding_all decide
    simp only [initWeights, hv, if_true]
  have h2 : exW8.normalize = ⟨1, 0, 0, 0⟩ := by with_unfolding_all decide
  have h3 : initWeights (ProximityWeights.mk 1 0 0 0) = ⟨1, 0, 0, 0⟩ := by
    have hv : (ProximityWeights.mk 1 0 0 0).validate = true := by with_unfolding_all decide
    simp only [initWeights, hv, if_true]
  refine ⟨by refine ⟨?_, ?_, ?_, ?_⟩ <;> with_unfolding_all decide,
    by with_unfolding_all decide, ?_, ?_⟩
  · rw [h1, h2, h3]
    intro h
    have hc := congrArg ProximityWeights.structural h
    rw [show exW8.structural = 10009/10000 from rfl] at hc
    norm_num at hc
  · rw [h1, h2, h3, matrix_entry_two, matrix_entry_two, prox_exF8 exW8,
      prox_exF8 ⟨1, 0, 0, 0⟩]
    have hz1 : ((exW8.functional : ℚ) : ℝ) = 0 := by norm_num [exW8]
    have hz2 : ((exW8.behavioral : ℚ) : ℝ) = 0 := by norm_num [exW8]
    have hz3 : ((exW8.temporal : ℚ) : ℝ) = 0 := by norm_num [exW8]
    have hs : ((exW8.structural : ℚ) : ℝ) = 10009/10000 := by
      rw [show exW8.structural = 10009/10000 from rfl]
      push_cast
      norm_num
    rw [hz1, hz2, hz3, hs]
    push_cast
    intro h
    nlinarith [h]

/-- Witness for the amended C8 at weights (2,2,2,2), whose total 8 is far from
the tolerance window. -/
theorem C8_weight_renormalization_amended_witness :
    initWeights ⟨2, 2, 2, 2⟩ = initWeights (ProximityWeights.normalize ⟨2, 2, 2, 2⟩) ∧
    initWeights ⟨1, 1, 1, 1⟩ = initWeights ⟨0.25, 0.25, 0.25, 0.25⟩ :=
  ⟨(C8_weight_renormalization_amended ⟨2, 2, 2, 2⟩
      (by refine ⟨?_, ?_, ?_, ?_⟩ <;> norm_num)
      (by norm_num [ProximityWeights.total])
      (Or.inr (by norm_num [ProximityWeights.total]))).1,
   (C8_weight_renormalization_amended ⟨2, 2, 2, 2⟩
      (by refine ⟨?_, ?_, ?_, ?_⟩ <;> norm_num)
      (by norm_num [ProximityWeights.total])
      (Or.inr (by norm_num [ProximityWeights.total]))).2.2⟩

/-- C4.  `extract_features` derives tenure from the wall clock: the same
snapshot (same hire date) read one day apart yields different temporal
features, so two runs of the pipeline on an identical snapshot and identical
configuration are not structurally identical. -/
theorem C4_wall_clock_breaks_determinism :
    tenure_days_at 20739 (some 18262) ≠ tenure_days_at 20740 (some 18262) := by
  decide
